import Mathlib

/-!
Verification development for `tradingview_importer.py`.

The Python source is shallowly embedded below.  Strings are handled as
`List Char` with structural recursion so that every definition is
executable by kernel reduction.  Machine-level caveats of the embedding
are recorded in the doc comment of each definition.
-/

/-- Characters treated as whitespace by `str.strip()` / surrounding-space
tolerance of `pandas.to_datetime` (the common ASCII whitespace). -/
def isSpaceChar (c : Char) : Bool :=
  c == ' ' || c == '\t' || c == '\n' || c == '\r'

/-- Model of Python `str.strip()`: drop leading and trailing whitespace. -/
def pyStrip (cs : List Char) : List Char :=
  ((cs.dropWhile isSpaceChar).reverse.dropWhile isSpaceChar).reverse

/-- Model of Python `str.split(sep)` for a one-character separator:
splitting always yields at least one (possibly empty) field. -/
def splitChar (sep : Char) : List Char → List (List Char)
  | [] => [[]]
  | c :: rest =>
    match splitChar sep rest with
    | [] => if c == sep then [[], []] else [[c]]
    | f :: fs => if c == sep then [] :: f :: fs else (c :: f) :: fs

/-- Numeric value of a decimal digit character. -/
def digitVal (c : Char) : Nat := c.toNat - 48

/-- Value of a list of decimal digit characters, most significant first. -/
def natOfDigits (ds : List Char) : Nat :=
  ds.foldl (fun a c => a * 10 + digitVal c) 0

/-- Split a character list into its maximal leading run of decimal digits
and the remainder. -/
def takeDigits : List Char → List Char × List Char
  | [] => ([], [])
  | c :: cs =>
    if c.isDigit then
      match takeDigits cs with
      | (ds, r) => (c :: ds, r)
    else ([], c :: cs)

/-- A Python `float` value as produced by `float(str)` in this program.
Since the program performs no arithmetic on prices, a finite float is
kept as the exact decimal `m * 10 ^ e` denoted by its literal
(IEEE-754 rounding and overflow of huge exponents are not modelled);
`inf` and `nan` record the non-finite literals `float` also accepts. -/
inductive PyFloat where
  | finite (m : Int) (e : Int)
  | inf (neg : Bool)
  | nan
deriving DecidableEq, Repr

/-- Whether a `PyFloat` is a finite number. -/
def PyFloat.isFinite : PyFloat → Bool
  | .finite _ _ => true
  | _ => false

/-- The Python float literal `0.0` used for fresh `volume` cells. -/
def pyZero : PyFloat := PyFloat.finite 0 0

/-- Model of Python `float(str)` on one field: optional sign, then either
a case-insensitive `inf`/`infinity`/`nan` or a decimal significand with
optional fraction and exponent; surrounding whitespace is tolerated.
Digit-group underscores are not modelled.  Returns `none` exactly when
`float` raises `ValueError`, which the caller catches. -/
def pyFloatParse (cs0 : List Char) : Option PyFloat :=
  let cs := pyStrip cs0
  let (neg, cs) : Bool × List Char :=
    match cs with
    | '+' :: r => (false, r)
    | '-' :: r => (true, r)
    | r => (false, r)
  let lc := cs.map Char.toLower
  if lc == "inf".data || lc == "infinity".data then some (PyFloat.inf neg)
  else if lc == "nan".data then some PyFloat.nan
  else
    match takeDigits cs with
    | (intDs, r1) =>
      let (fracDs, r2) : List Char × List Char :=
        match r1 with
        | '.' :: r => takeDigits r
        | _ => (intDs.take 0, r1)
      if intDs.length == 0 && fracDs.length == 0 then none
      else
        let readExp : Option Int :=
          match r2 with
          | [] => some 0
          | 'e' :: r3 | 'E' :: r3 =>
            let (esign, r4) : Int × List Char :=
              match r3 with
              | '+' :: r => (1, r)
              | '-' :: r => (-1, r)
              | r => (1, r)
            match takeDigits r4 with
            | ([], _) => none
            | (eds, r5) => if r5 == [] then some (esign * natOfDigits eds) else none
          | _ => none
        match readExp with
        | none => none
        | some ex =>
          let mAbs : Nat := natOfDigits (intDs ++ fracDs)
          if mAbs == 0 then some (PyFloat.finite 0 0)
          else
            let m : Int := if neg then -(mAbs : Int) else (mAbs : Int)
            some (PyFloat.finite m (ex - fracDs.length))

/-- Naive (timezone-unaware) wall-clock datetime, to microsecond
precision (pandas nanoseconds beyond the sixth fractional digit are
truncated by the embedding). -/
structure NaiveDT where
  year : Nat
  month : Nat
  day : Nat
  hour : Nat
  minute : Nat
  second : Nat
  micro : Nat
deriving DecidableEq, Repr

/-- Gregorian leap-year test. -/
def isLeapYear (y : Nat) : Bool :=
  y % 4 == 0 && (y % 100 != 0 || y % 400 == 0)

/-- Days in a month of the proleptic Gregorian calendar. -/
def daysInMonth (y m : Nat) : Nat :=
  if m == 2 then (if isLeapYear y then 29 else 28)
  else if m == 4 || m == 6 || m == 9 || m == 11 then 30
  else 31

/-- Days of the proleptic Gregorian date since 0000-03-01
(Hinnant's civil-from-days algorithm, restricted to the positive years
this program admits). -/
def daysFromCivilN (y m d : Nat) : Nat :=
  let yy := if m ≤ 2 then y - 1 else y
  let era := yy / 400
  let yoe := yy % 400
  let mp := (m + 9) % 12
  let doy := (153 * mp + 2) / 5 + (d - 1)
  let doe := yoe * 365 + yoe / 4 - yoe / 100 + doy
  era * 146097 + doe

/-- Days since the Unix epoch 1970-01-01. -/
def daysFromCivil (y m d : Nat) : Int :=
  (daysFromCivilN y m d : Int) - 719468

/-- Total microseconds of a naive datetime counted from the epoch,
read as a plain wall-clock value. -/
def NaiveDT.toMicros (t : NaiveDT) : Int :=
  (((daysFromCivil t.year t.month t.day * 24 + (t.hour : Int)) * 60
      + (t.minute : Int)) * 60 + (t.second : Int)) * 1000000 + (t.micro : Int)

/-- Day of week, `0 = Sunday`, of a Gregorian date. -/
def dayOfWeek (y m d : Nat) : Nat :=
  (daysFromCivilN y m d + 3) % 7

/-- Day of month of the second Sunday of March of a year. -/
def secondSundayOfMarch (y : Nat) : Nat :=
  8 + (7 - dayOfWeek y 3 8) % 7

/-- Day of month of the first Sunday of November of a year. -/
def firstSundayOfNovember (y : Nat) : Nat :=
  1 + (7 - dayOfWeek y 11 1) % 7

/-- Whether US/Eastern daylight-saving time is in effect at a naive wall
clock instant.  Models `pytz.timezone("US/Eastern")` with the rule in
force since 2007 (DST from the second Sunday of March 03:00 wall time to
the first Sunday of November 01:00 wall time); pytz's `is_dst=False`
default resolves ambiguous and non-existent wall times to standard
time, which the half-open wall-clock interval below reproduces.
Pre-2007 historical transitions are approximated by the same rule. -/
def isEasternDST (t : NaiveDT) : Bool :=
  let mss := secondSundayOfMarch t.year
  let fsn := firstSundayOfNovember t.year
  let afterStart :=
    t.month > 3 || (t.month == 3 && (t.day > mss || (t.day == mss && t.hour ≥ 3)))
  let beforeEnd :=
    t.month < 11 || (t.month == 11 && (t.day < fsn || (t.day == fsn && t.hour < 1)))
  afterStart && beforeEnd

/-- UTC offset, in minutes, that `eastern.localize` attaches to a naive
wall-clock datetime: -240 (EDT) or -300 (EST). -/
def easternOffset (t : NaiveDT) : Int :=
  if isEasternDST t then -240 else -300

/-- Timezone-aware datetime: a wall clock together with its UTC offset in
minutes. -/
structure AwareDT where
  naive : NaiveDT
  offset : Int
deriving DecidableEq, Repr

/-- The absolute instant of an aware datetime, in microseconds since the
epoch.  Python compares and equates aware datetimes by this value. -/
def AwareDT.instant (t : AwareDT) : Int :=
  t.naive.toMicros - t.offset * 60000000

/-- Model of `eastern.localize(dt)`: tag a naive datetime with the
US/Eastern offset in force at that wall time. -/
def easternLocalize (t : NaiveDT) : AwareDT :=
  ⟨t, easternOffset t⟩

/-- A Python datetime value that is either naive or timezone-aware
(`tzinfo is None` versus not). -/
inductive PyDT where
  | naive (t : NaiveDT)
  | aware (a : AwareDT)
deriving DecidableEq, Repr

/-- Fractional-second digits after the decimal point, converted to
microseconds (at most nine digits are accepted, digits beyond the sixth
are truncated). -/
def parseFracMicros (cs : List Char) : Option (Nat × List Char) :=
  match takeDigits cs with
  | ([], _) => none
  | (ds, r) =>
    if ds.length > 9 then none
    else some (natOfDigits (ds.take 6) * 10 ^ (6 - (ds.take 6).length), r)

/-- Parse an optional trailing UTC offset `±HH:MM` or `±HHMM`.  Returns
the offset in minutes when one is present; characters that do not start
an offset are left for the caller to reject. -/
def parseOffsetMinutes (cs : List Char) : Option (Option Int × List Char) :=
  match cs with
  | [] => some (none, [])
  | c :: r =>
    if c == '+' || c == '-' then
      let sgn : Int := if c == '-' then -1 else 1
      match takeDigits r with
      | (ds, r2) =>
        if ds.length == 4 then
          let hh := natOfDigits (ds.take 2)
          let mm := natOfDigits (ds.drop 2)
          if hh ≤ 23 && mm ≤ 59 then some (some (sgn * ((hh * 60 + mm : Nat) : Int)), r2)
          else none
        else if ds.length == 2 then
          match r2 with
          | ':' :: r3 =>
            match takeDigits r3 with
            | (ms, r4) =>
              if ms.length == 2 then
                let hh := natOfDigits ds
                let mm := natOfDigits ms
                if hh ≤ 23 && mm ≤ 59 then some (some (sgn * ((hh * 60 + mm : Nat) : Int)), r4)
                else none
              else none
          | _ => none
        else none
    else some (none, cs)

/-- Parse the date part `YYYY-M[M]-D[D]` of an ISO-like datetime. -/
def parseDatePart (cs : List Char) : Option (Nat × Nat × Nat × List Char) :=
  match takeDigits cs with
  | (yd, r1) =>
    if yd.length != 4 then none
    else
      match r1 with
      | '-' :: r2 =>
        match takeDigits r2 with
        | (md, r3) =>
          if md.length == 0 || md.length > 2 then none
          else
            match r3 with
            | '-' :: r4 =>
              match takeDigits r4 with
              | (dd, r5) =>
                if dd.length == 0 || dd.length > 2 then none
                else some (natOfDigits yd, natOfDigits md, natOfDigits dd, r5)
            | _ => none
      | _ => none

/-- Parse the time part `H[H][:M[M][:S[S][.frac]]]` of an ISO-like
datetime, yielding hour, minute, second, microsecond and the rest. -/
def parseTimePart (cs : List Char) : Option (Nat × Nat × Nat × Nat × List Char) :=
  match takeDigits cs with
  | ([], _) => none
  | (hd, r1) =>
    if hd.length > 2 then none
    else
      let h := natOfDigits hd
      match r1 with
      | ':' :: r2 =>
        match takeDigits r2 with
        | (md, r3) =>
          if md.length == 0 || md.length > 2 then none
          else
            let mi := natOfDigits md
            match r3 with
            | ':' :: r4 =>
              match takeDigits r4 with
              | (sd, r5) =>
                if sd.length == 0 || sd.length > 2 then none
                else
                  let s := natOfDigits sd
                  match r5 with
                  | '.' :: r6 => (parseFracMicros r6).map (fun p => (h, mi, s, p.1, p.2))
                  | _ => some (h, mi, s, 0, r5)
            | _ => some (h, mi, 0, 0, r3)
      | _ => some (h, 0, 0, 0, r1)

/-- Range validity of a date as enforced by `pandas.Timestamp`
(the representable years 1677–2262 are approximated by 1678–2261). -/
def validDate (y m d : Nat) : Bool :=
  1678 ≤ y && y ≤ 2261 && 1 ≤ m && m ≤ 12 && 1 ≤ d && d ≤ daysInMonth y m

/-- Range validity of a time of day. -/
def validTime (h mi s micro : Nat) : Bool :=
  h ≤ 23 && mi ≤ 59 && s ≤ 59 && micro < 1000000

/-- Core of `pd.to_datetime(str)` on the ISO-like strings this program
feeds it: `YYYY-M[M]-D[D][ time][±HH[:]MM]`, naive when no offset is
present.  `none` models the `ValueError`/`OutOfBoundsDatetime`
exceptions which every caller catches. -/
def pdParse (cs : List Char) : Option PyDT :=
  match parseDatePart cs with
  | none => none
  | some (y, m, d, r1) =>
    let tRes : Option (Nat × Nat × Nat × Nat × List Char) :=
      match r1 with
      | [] => some (0, 0, 0, 0, [])
      | ' ' :: r2 => parseTimePart r2
      | _ => none
    match tRes with
    | none => none
    | some (h, mi, s, mic, r3) =>
      match parseOffsetMinutes r3 with
      | none => none
      | some (off, r4) =>
        if r4 == [] && validDate y m d && validTime h mi s mic then
          match off with
          | none => some (.naive ⟨y, m, d, h, mi, s, mic⟩)
          | some o => some (.aware ⟨⟨y, m, d, h, mi, s, mic⟩, o⟩)
        else none

/-- Model of `pd.to_datetime` applied to a string (surrounding
whitespace stripped). -/
def pd_to_datetime (s : String) : Option PyDT :=
  pdParse (pyStrip s.data)

/-- Argument of `ensure_tz`, which accepts either a string or a datetime
(`isinstance(dt, str)` dispatch in the source). -/
inductive TSInput where
  | str (s : String)
  | dt (d : PyDT)

/-- The datetime half of `ensure_tz` (source lines 48–49): a naive value
is localized to US/Eastern, an aware value is returned unchanged. -/
def ensure_tz_dt : PyDT → AwareDT
  | .naive t => easternLocalize t
  | .aware a => a

/-- Model of `ensure_tz` (source lines 45–50): strings are first parsed
with `pd.to_datetime` (`none` models the exception escaping to the
caller), then naive values are localized to US/Eastern. -/
def ensure_tz : TSInput → Option AwareDT
  | .str s => (pd_to_datetime s).map ensure_tz_dt
  | .dt d => some (ensure_tz_dt d)

/-- The record returned by `parse_tradingview_line` for a valid line. -/
structure ParsedBar where
  ts_event : AwareDT
  open_ : PyFloat
  high : PyFloat
  low : PyFloat
  close : PyFloat
deriving DecidableEq, Repr

/-- Model of `parse_tradingview_line` (source lines 15–42): strip the
line, split on commas, require exactly 5 fields, replace `T` by a space
in the timestamp field, convert the four price fields with `float`,
parse the timestamp and localize it to US/Eastern when naive.  `none`
models both the explicit `return None` and the caught exceptions. -/
def parse_tradingview_line (line : String) : Option ParsedBar :=
  match splitChar ',' (pyStrip line.data) with
  | [p0, p1, p2, p3, p4] =>
    let tsChars := p0.map (fun c => if c == 'T' then ' ' else c)
    match pyFloatParse p1, pyFloatParse p2, pyFloatParse p3, pyFloatParse p4 with
    | some o, some h, some l, some c =>
      match pd_to_datetime (String.mk tsChars) with
      | some ts0 =>
        some ⟨(match ts0 with
               | .naive t => easternLocalize t
               | .aware a => a), o, h, l, c⟩
      | none => none
    | _, _, _, _ => none
  | _ => none

/-- The timestamp field of a line as `parse_tradingview_line` prepares
it (first comma-separated field of the stripped line, `T` replaced by a
space). -/
def tsField (line : String) : String :=
  match splitChar ',' (pyStrip line.data) with
  | [] => ""
  | p0 :: _ => String.mk (p0.map (fun c => if c == 'T' then ' ' else c))

/-- One row of the merged table, with the fixed column set
`ts_event,open,high,low,close,volume` declared by the source. -/
structure Row where
  ts_event : AwareDT
  open_ : PyFloat
  high : PyFloat
  low : PyFloat
  close : PyFloat
  volume : PyFloat
deriving DecidableEq, Repr

/-- Deduplication key of a row: aware datetimes compare by instant. -/
def rowKey (r : Row) : Int := r.ts_event.instant

/-- Deduplication key of a batch entry. -/
def barKey (d : ParsedBar) : Int := d.ts_event.instant

/-- Model of `df['ts_event'] == timestamp` on one row: Python equality
of aware datetimes is equality of instants. -/
def rowMatches (t : AwareDT) (r : Row) : Bool :=
  r.ts_event.instant == t.instant

/-- The in-place overwrite `df.loc[existing, ['open','high','low','close']] = ...`
applied to one matched row (source lines 75–77). -/
def overwriteBar (d : ParsedBar) (r : Row) : Row :=
  { r with open_ := d.open_, high := d.high, low := d.low, close := d.close }

/-- One iteration of the upsert loop body for a non-`None` entry
(source lines 72–90): re-canonicalize the entry's timestamp, overwrite
the price fields of every row with an equal key, otherwise append a new
row with `volume = 0.0`. -/
def upsertOne (df : List Row) (d : ParsedBar) : List Row :=
  let timestamp := ensure_tz_dt (.aware d.ts_event)
  if df.any (rowMatches timestamp) then
    df.map (fun r => if rowMatches timestamp r then overwriteBar d r else r)
  else
    df ++ [⟨timestamp, d.open_, d.high, d.low, d.close, pyZero⟩]

/-- The upsert loop of `update_csv` (source lines 68–90), skipping
`None` entries. -/
def update_csv_rows (df : List Row) : List (Option ParsedBar) → List Row
  | [] => df
  | none :: rest => update_csv_rows df rest
  | some d :: rest => update_csv_rows (upsertOne df d) rest

/-- Row order used by `df.sort_values('ts_event')`: ascending canonical
timestamp (aware datetimes compare by instant). -/
def rowLE (a b : Row) : Prop := rowKey a ≤ rowKey b

instance : DecidableRel rowLE := fun a b => Int.decLe (rowKey a) (rowKey b)

instance : IsTotal Row rowLE := ⟨fun a b => Int.le_total (rowKey a) (rowKey b)⟩

instance : IsTrans Row rowLE := ⟨fun _ _ _ h1 h2 => Int.le_trans h1 h2⟩

/-- Model of `df.sort_values('ts_event').reset_index(drop=True)`
(source line 93). -/
def sortDf (df : List Row) : List Row :=
  List.insertionSort rowLE df

/-- The fixed header of the persisted table. -/
def csvHeader : List Char := "ts_event,open,high,low,close,volume".data

/-- Map a failable function over a list, failing when any element
fails; models an exception escaping from a row-wise conversion. -/
def optionMapList (f : α → Option β) : List α → Option (List β)
  | [] => some []
  | a :: as =>
    match f a, optionMapList f as with
    | some b, some bs => some (b :: bs)
    | _, _ => none

/-- Conversion of one persisted CSV data line back into a row: six
comma-separated cells, the timestamp cell normalized through
`ensure_tz` (source line 59) and the numeric cells through the float
model (a non-numeric numeric cell is treated as a structural load
failure by the embedding). -/
def parseCsvRow (cs : List Char) : Option Row :=
  match splitChar ',' cs with
  | [c0, c1, c2, c3, c4, c5] =>
    match ensure_tz (.str (String.mk c0)), pyFloatParse c1, pyFloatParse c2,
        pyFloatParse c3, pyFloatParse c4, pyFloatParse c5 with
    | some ts, some o, some h, some l, some c, some v => some ⟨ts, o, h, l, c, v⟩
    | _, _, _, _, _, _ => none
  | _ => none

/-- Model of `pd.read_csv` plus the `ensure_tz` normalization of the
`ts_event` column (source lines 57–59) for the fixed six-column schema
this program reads and writes: blank lines are skipped, the header must
be the fixed one, and every data line must convert.  `none` models the
exceptions the `except` clause catches. -/
def readCsvRows (content : String) : Option (List Row) :=
  match (splitChar '\n' content.data).filter (fun l => !l.isEmpty) with
  | [] => none
  | header :: rest =>
    if header == csvHeader then optionMapList parseCsvRow rest else none

/-- The load phase of `update_csv` (source lines 55–65): a missing or
empty file, or any load failure, yields the fresh empty DataFrame with
the fixed column set. -/
def loadTable : Option String → List Row
  | none => []
  | some content =>
    if content.data.isEmpty then []
    else
      match readCsvRows content with
      | some df => df
      | none => []

/-- The in-memory result of `update_csv` (source lines 53–93): load the
persisted table or start empty, upsert the batch, sort ascending by
canonical timestamp.  This is the table that is then persisted. -/
def update_csv (csv_file : Option String) (tradingview_data : List (Option ParsedBar)) :
    List Row :=
  sortDf (update_csv_rows (loadTable csv_file) tradingview_data)

/-- Character of a decimal digit. -/
def digitChar (n : Nat) : Char := Char.ofNat (48 + n)

/-- Two-digit zero-padded decimal rendering. -/
def pad2 (n : Nat) : List Char := [digitChar (n / 10 % 10), digitChar (n % 10)]

/-- Four-digit zero-padded decimal rendering. -/
def pad4 (n : Nat) : List Char :=
  [digitChar (n / 1000 % 10), digitChar (n / 100 % 10), digitChar (n / 10 % 10),
   digitChar (n % 10)]

/-- Model of `x.strftime('%Y-%m-%d %H:%M:%S%z')` on an aware datetime:
wall-clock fields (fractional seconds dropped by the format) followed by
the UTC offset as `±HHMM`. -/
def strftimeZ (t : AwareDT) : List Char :=
  pad4 t.naive.year ++ '-' :: pad2 t.naive.month ++ '-' :: pad2 t.naive.day ++ ' ' ::
  pad2 t.naive.hour ++ ':' :: pad2 t.naive.minute ++ ':' :: pad2 t.naive.second ++
  (if t.offset < 0 then '-' else '+') ::
    pad2 (t.offset.natAbs / 60) ++ pad2 (t.offset.natAbs % 60)

/-- Model of the regex rewrite replacing a trailing `±HHMM` offset with
`±HH:MM` (source line 98). -/
def insertTzColon (cs : List Char) : List Char :=
  match cs.reverse with
  | d4 :: d3 :: d2 :: d1 :: sg :: rest =>
    if (sg == '+' || sg == '-') && d1.isDigit && d2.isDigit && d3.isDigit && d4.isDigit then
      (d4 :: d3 :: ':' :: d2 :: d1 :: sg :: rest).reverse
    else cs
  | _ => cs

/-- The persisted textual form of a timestamp (source lines 96–98):
`YYYY-MM-DD HH:MM:SS±HH:MM`. -/
def serialize_ts (t : AwareDT) : String :=
  String.mk (insertTzColon (strftimeZ t))

/-- Decimal rendering of a float cell as `to_csv` writes it (plain
decimal text; `inf` and an empty cell for `nan` as pandas does). -/
def pyFloatRepr : PyFloat → List Char
  | .inf neg => (if neg then "-inf" else "inf").data
  | .nan => []
  | .finite m e =>
    let sgn : List Char := if m < 0 then ['-'] else []
    let n := m.natAbs
    if 0 ≤ e then sgn ++ Nat.toDigits 10 (n * 10 ^ e.toNat) ++ '.' :: ['0']
    else
      let k := (-e).toNat
      let ds0 := Nat.toDigits 10 n
      let ds := if ds0.length ≤ k then List.replicate (k + 1 - ds0.length) '0' ++ ds0 else ds0
      sgn ++ ds.take (ds.length - k) ++ '.' :: ds.drop (ds.length - k)

/-- One persisted CSV line of a row. -/
def serializeRow (r : Row) : List Char :=
  (serialize_ts r.ts_event).data ++ ',' :: pyFloatRepr r.open_ ++ ',' :: pyFloatRepr r.high
    ++ ',' :: pyFloatRepr r.low ++ ',' :: pyFloatRepr r.close ++ ',' :: pyFloatRepr r.volume

/-- Model of the persist phase of `update_csv` (source lines 96–100):
header line then one line per row. -/
def persistCsv (df : List Row) : String :=
  String.mk (csvHeader ++ (df.foldr (fun r acc => '\n' :: serializeRow r ++ acc) ['\n']))

/-- The input-collection loop of `main` (source lines 108–115): read
lines until an empty (all-whitespace) line, keep the successful parses. -/
def collectBatch : List String → List ParsedBar
  | [] => []
  | line :: rest =>
    if (pyStrip line.data).isEmpty then []
    else
      match parse_tradingview_line line with
      | some d => d :: collectBatch rest
      | none => collectBatch rest

/-- Model of `main` (source lines 103–120) as a function from the input
lines and the prior file content to the resulting file content: when no
line parsed, the file is left untouched; otherwise `update_csv` runs and
rewrites it. -/
def main_run (inputLines : List String) (csv_file : Option String) : Option String :=
  let tradingview_data := collectBatch inputLines
  if tradingview_data.isEmpty then csv_file
  else some (persistCsv (update_csv csv_file (tradingview_data.map some)))

/-- Number of rows of a table carrying a given canonical timestamp key. -/
def countKey (df : List Row) (k : Int) : Nat :=
  df.countP (fun r => rowKey r == k)

/-- The table invariant of the spec: at most one row per distinct
canonical timestamp. -/
def uniqueKeys (df : List Row) : Prop :=
  ∀ k : Int, countKey df k ≤ 1

/-- Field ranges under which an aware datetime is representable by the
program (they hold for every timestamp produced by the parser or the
loader). -/
def ValidAware (t : AwareDT) : Prop :=
  validDate t.naive.year t.naive.month t.naive.day = true ∧
  validTime t.naive.hour t.naive.minute t.naive.second t.naive.micro = true ∧
  t.offset.natAbs < 1440

/-! ### Basic facts about the upsert step -/

theorem ensure_tz_dt_aware (a : AwareDT) : ensure_tz_dt (.aware a) = a := rfl

theorem rowKey_overwriteBar (d : ParsedBar) (r : Row) :
    rowKey (overwriteBar d r) = rowKey r := rfl

theorem rowMatches_iff_key (t : AwareDT) (r : Row) :
    rowMatches t r = (rowKey r == t.instant) := rfl

theorem upsertOne_eq_map (df : List Row) (d : ParsedBar)
    (h : df.any (rowMatches d.ts_event) = true) :
    upsertOne df d =
      df.map (fun r => if rowMatches d.ts_event r then overwriteBar d r else r) := by
  simp only [upsertOne, ensure_tz_dt_aware, h, if_true]

theorem upsertOne_eq_append (df : List Row) (d : ParsedBar)
    (h : df.any (rowMatches d.ts_event) = false) :
    upsertOne df d =
      df ++ [⟨d.ts_event, d.open_, d.high, d.low, d.close, pyZero⟩] := by
  simp only [upsertOne, ensure_tz_dt_aware, h, Bool.false_eq_true, if_false]

theorem countKey_map_overwrite (df : List Row) (d : ParsedBar) (k : Int) :
    countKey (df.map (fun r => if rowMatches d.ts_event r then overwriteBar d r else r)) k =
      countKey df k := by
  unfold countKey
  rw [List.countP_map]
  apply List.countP_congr
  intro r _
  by_cases h : rowMatches d.ts_event r <;> simp [h, Function.comp, rowKey, overwriteBar]

theorem countKey_append_one (df : List Row) (r : Row) (k : Int) :
    countKey (df ++ [r]) k = countKey df k + (if rowKey r == k then 1 else 0) := by
  unfold countKey
  rw [List.countP_append]
  simp [List.countP_cons]

theorem countKey_eq_zero_of_any_false (df : List Row) (d : ParsedBar)
    (h : df.any (rowMatches d.ts_event) = false) :
    countKey df (barKey d) = 0 := by
  unfold countKey
  rw [List.countP_eq_zero]
  intro r hr
  have := List.any_eq_false.mp h r hr
  simpa [rowMatches, rowKey, barKey] using this

theorem countKey_pos_of_any_true (df : List Row) (d : ParsedBar)
    (h : df.any (rowMatches d.ts_event) = true) :
    1 ≤ countKey df (barKey d) := by
  unfold countKey
  rw [Nat.succ_le, List.countP_pos_iff]
  obtain ⟨r, hr, hm⟩ := List.any_eq_true.mp h
  exact ⟨r, hr, by simpa [rowMatches, rowKey, barKey] using hm⟩

theorem countKey_upsertOne_self (df : List Row) (d : ParsedBar)
    (hu : countKey df (barKey d) ≤ 1) :
    countKey (upsertOne df d) (barKey d) = 1 := by
  cases h : df.any (rowMatches d.ts_event) with
  | true =>
    rw [upsertOne_eq_map df d h, countKey_map_overwrite]
    exact Nat.le_antisymm hu (countKey_pos_of_any_true df d h)
  | false =>
    rw [upsertOne_eq_append df d h, countKey_append_one,
      countKey_eq_zero_of_any_false df d h]
    simp [rowKey, barKey]

theorem countKey_upsertOne_other (df : List Row) (d : ParsedBar) (k : Int)
    (hk : barKey d ≠ k) :
    countKey (upsertOne df d) k = countKey df k := by
  cases h : df.any (rowMatches d.ts_event) with
  | true => rw [upsertOne_eq_map df d h, countKey_map_overwrite]
  | false =>
    rw [upsertOne_eq_append df d h, countKey_append_one]
    have : (rowKey ⟨d.ts_event, d.open_, d.high, d.low, d.close, pyZero⟩ == k) = false := by
      simpa [rowKey, barKey] using hk
    simp [this]

theorem uniqueKeys_upsertOne (df : List Row) (d : ParsedBar) (hu : uniqueKeys df) :
    uniqueKeys (upsertOne df d) := by
  intro k
  by_cases hk : barKey d = k
  · subst hk
    exact Nat.le_of_eq (countKey_upsertOne_self df d (hu _))
  · rw [countKey_upsertOne_other df d k hk]
    exact hu k

theorem upsertOne_key_rows (df : List Row) (d : ParsedBar) :
    ∀ r ∈ upsertOne df d, rowKey r = barKey d →
      r.open_ = d.open_ ∧ r.high = d.high ∧ r.low = d.low ∧ r.close = d.close := by
  intro r hr hk
  cases h : df.any (rowMatches d.ts_event) with
  | true =>
    rw [upsertOne_eq_map df d h] at hr
    obtain ⟨r0, hr0, hmap⟩ := List.mem_map.mp hr
    by_cases hm : rowMatches d.ts_event r0
    · rw [if_pos hm] at hmap
      subst hmap
      simp [overwriteBar]
    · rw [if_neg hm] at hmap
      subst hmap
      exact absurd (by simpa [rowMatches, rowKey, barKey] using hk) hm
  | false =>
    rw [upsertOne_eq_append df d h] at hr
    rcases List.mem_append.mp hr with hmem | hmem
    · have := List.any_eq_false.mp h r hmem
      exact absurd (by simpa [rowMatches, rowKey, barKey] using hk) this
    · have : r = ⟨d.ts_event, d.open_, d.high, d.low, d.close, pyZero⟩ := by
        simpa using hmem
      subst this
      exact ⟨rfl, rfl, rfl, rfl⟩

theorem upsertOne_mem_other (df : List Row) (d : ParsedBar) (k : Int)
    (hk : barKey d ≠ k) :
    ∀ r ∈ upsertOne df d, rowKey r = k → r ∈ df := by
  intro r hr hrk
  cases h : df.any (rowMatches d.ts_event) with
  | true =>
    rw [upsertOne_eq_map df d h] at hr
    obtain ⟨r0, hr0, hmap⟩ := List.mem_map.mp hr
    by_cases hm : rowMatches d.ts_event r0
    · rw [if_pos hm] at hmap
      subst hmap
      have : rowKey r0 = barKey d := by
        simpa [rowMatches, rowKey, barKey] using hm
      rw [rowKey_overwriteBar] at hrk
      exact absurd (this ▸ hrk) hk
    · rw [if_neg hm] at hmap
      subst hmap
      exact hr0
  | false =>
    rw [upsertOne_eq_append df d h] at hr
    rcases List.mem_append.mp hr with hmem | hmem
    · exact hmem
    · have : r = ⟨d.ts_event, d.open_, d.high, d.low, d.close, pyZero⟩ := by
        simpa using hmem
      subst this
      exact absurd hrk (by simpa [rowKey, barKey] using hk)

/-! ### Facts about the whole upsert loop -/

theorem update_csv_rows_append (df : List Row) (xs ys : List (Option ParsedBar)) :
    update_csv_rows df (xs ++ ys) = update_csv_rows (update_csv_rows df xs) ys := by
  induction xs generalizing df with
  | nil => rfl
  | cons e rest ih =>
    cases e with
    | none => simpa [update_csv_rows] using ih df
    | some d => simpa [update_csv_rows] using ih (upsertOne df d)

theorem uniqueKeys_update_csv_rows (df : List Row) (batch : List (Option ParsedBar))
    (hu : uniqueKeys df) : uniqueKeys (update_csv_rows df batch) := by
  induction batch generalizing df with
  | nil => exact hu
  | cons e rest ih =>
    cases e with
    | none => exact ih df hu
    | some d => exact ih (upsertOne df d) (uniqueKeys_upsertOne df d hu)

theorem countKey_update_csv_rows_nokey (df : List Row) (batch : List (Option ParsedBar))
    (k : Int) (hb : ∀ e ∈ batch, ∀ d : ParsedBar, e = some d → barKey d ≠ k) :
    countKey (update_csv_rows df batch) k = countKey df k := by
  induction batch generalizing df with
  | nil => rfl
  | cons e rest ih =>
    cases e with
    | none =>
      exact ih df (fun e he d hd => hb e (List.mem_cons_of_mem _ he) d hd)
    | some d =>
      have hk : barKey d ≠ k := hb (some d) (List.mem_cons_self _ _) d rfl
      rw [show update_csv_rows df (some d :: rest) = update_csv_rows (upsertOne df d) rest
          from rfl,
        ih (upsertOne df d) (fun e he d hd => hb e (List.mem_cons_of_mem _ he) d hd),
        countKey_upsertOne_other df d k hk]

theorem mem_update_csv_rows_nokey (df : List Row) (batch : List (Option ParsedBar))
    (k : Int) (hb : ∀ e ∈ batch, ∀ d : ParsedBar, e = some d → barKey d ≠ k) :
    ∀ r ∈ update_csv_rows df batch, rowKey r = k → r ∈ df := by
  induction batch generalizing df with
  | nil => exact fun r hr _ => hr
  | cons e rest ih =>
    cases e with
    | none =>
      exact fun r hr hk =>
        ih df (fun e he d hd => hb e (List.mem_cons_of_mem _ he) d hd) r hr hk
    | some d =>
      intro r hr hk
      have hmem : r ∈ upsertOne df d :=
        ih (upsertOne df d) (fun e he d hd => hb e (List.mem_cons_of_mem _ he) d hd) r hr hk
      exact upsertOne_mem_other df d k
        (hb (some d) (List.mem_cons_self _ _) d rfl) r hmem hk

theorem sortDf_perm (df : List Row) : List.Perm (sortDf df) df :=
  List.perm_insertionSort rowLE df

theorem countKey_sortDf (df : List Row) (k : Int) :
    countKey (sortDf df) k = countKey df k :=
  (sortDf_perm df).countP_eq _

theorem mem_sortDf (df : List Row) (r : Row) : r ∈ sortDf df ↔ r ∈ df :=
  (sortDf_perm df).mem_iff

/-! ### Claim C3 -/

/-- C3: for every batch entry whose canonical timestamp key does not
match any existing row, the merge appends a new row with the entry's
open/high/low/close values and volume equal to zero. -/
theorem spec_c3_new_key_appends_volume_zero (df : List Row) (d : ParsedBar)
    (h : df.any (rowMatches d.ts_event) = false) :
    upsertOne df d = df ++ [{ ts_event := d.ts_event, open_ := d.open_, high := d.high,
                              low := d.low, close := d.close, volume := pyZero }] :=
  upsertOne_eq_append df d h

/-- Witness for C3 at a concrete new-key insertion into the empty table. -/
theorem spec_c3_new_key_appends_volume_zero_witness :
    upsertOne [] ⟨⟨⟨2024, 1, 2, 9, 30, 0, 0⟩, -300⟩, PyFloat.finite 100 0,
      PyFloat.finite 101 0, PyFloat.finite 99 0, PyFloat.finite 1005 (-1)⟩ =
    [{ ts_event := ⟨⟨2024, 1, 2, 9, 30, 0, 0⟩, -300⟩, open_ := PyFloat.finite 100 0,
       high := PyFloat.finite 101 0, low := PyFloat.finite 99 0,
       close := PyFloat.finite 1005 (-1), volume := pyZero }] :=
  spec_c3_new_key_appends_volume_zero [] _ (by decide)

/-! ### Claim C2 -/

/-- C2: for every existing table and batch entry whose canonical key
matches an existing row, the merge overwrites only that row's
open/high/low/close fields in place; every row keeps its position, its
timestamp and its volume, and unmatched rows are untouched. -/
theorem spec_c2_match_preserves_volume (df : List Row) (d : ParsedBar)
    (h : df.any (rowMatches d.ts_event) = true) :
    (upsertOne df d).length = df.length ∧
    ∀ (i : Nat) (r0 : Row), df[i]? = some r0 →
      (upsertOne df d)[i]? =
          some (if rowMatches d.ts_event r0 then overwriteBar d r0 else r0) ∧
        ((upsertOne df d)[i]?).map Row.volume = some r0.volume ∧
        ((upsertOne df d)[i]?).map Row.ts_event = some r0.ts_event := by
  rw [upsertOne_eq_map df d h]
  refine ⟨List.length_map _ _, ?_⟩
  intro i r0 h0
  rw [List.getElem?_map, h0]
  refine ⟨rfl, ?_, ?_⟩ <;>
    by_cases hm : rowMatches d.ts_event r0 <;> simp [hm, overwriteBar]

/-- Witness for C2: a matched upsert at a concrete one-row table keeps
the row's volume. -/
theorem spec_c2_match_preserves_volume_witness :
    ((upsertOne [⟨⟨⟨2024, 1, 2, 9, 30, 0, 0⟩, -300⟩, PyFloat.finite 100 0,
        PyFloat.finite 101 0, PyFloat.finite 99 0, PyFloat.finite 1005 (-1),
        PyFloat.finite 777 0⟩]
      ⟨⟨⟨2024, 1, 2, 9, 30, 0, 0⟩, -300⟩, PyFloat.finite 105 0, PyFloat.finite 106 0,
        PyFloat.finite 104 0, PyFloat.finite 1055 (-1)⟩)[0]?).map Row.volume =
      some (PyFloat.finite 777 0) :=
  ((spec_c2_match_preserves_volume _ _ (by decide)).2 0 _ rfl).2.1

/-! ### Claim C4 -/

/-- C4: a line whose comma-separated field count is not exactly 5 is
rejected with the skip sentinel rather than raising; the input loop
drops such a line and goes on with the rest, and the merge loop skips
sentinel entries. -/
theorem spec_c4_wrong_field_count_skipped :
    (∀ line : String, (splitChar ',' (pyStrip line.data)).length ≠ 5 →
      parse_tradingview_line line = none) ∧
    (∀ (line : String) (rest : List String), (pyStrip line.data).isEmpty = false →
      parse_tradingview_line line = none →
      collectBatch (line :: rest) = collectBatch rest) ∧
    (∀ (df : List Row) (rest : List (Option ParsedBar)),
      update_csv_rows df (none :: rest) = update_csv_rows df rest) := by
  refine ⟨?_, ?_, fun df rest => rfl⟩
  · intro line h
    rcases hs : splitChar ',' (pyStrip line.data) with
        _ | ⟨p0, _ | ⟨p1, _ | ⟨p2, _ | ⟨p3, _ | ⟨p4, _ | ⟨p5, tl⟩⟩⟩⟩⟩⟩
    · simp [parse_tradingview_line, hs]
    · simp [parse_tradingview_line, hs]
    · simp [parse_tradingview_line, hs]
    · simp [parse_tradingview_line, hs]
    · simp [parse_tradingview_line, hs]
    · exact absurd (by rw [hs]; rfl) h
    · simp [parse_tradingview_line, hs]
  · intro line rest he hp
    simp [collectBatch, he, hp]

/-- Witness for C4 at the spec's own 3-field example line, followed by a
valid line that is still collected. -/
theorem spec_c4_wrong_field_count_skipped_witness :
    parse_tradingview_line "2024-01-01T09:30:00,101.5,102.0" = none ∧
    collectBatch ["2024-01-01T09:30:00,101.5,102.0",
        "2024-01-02T09:30:00,100,101,99,100.5", ""] =
      collectBatch ["2024-01-02T09:30:00,100,101,99,100.5", ""] :=
  ⟨spec_c4_wrong_field_count_skipped.1 _ (by decide),
   spec_c4_wrong_field_count_skipped.2.1 _ _ (by decide)
     (spec_c4_wrong_field_count_skipped.1 _ (by decide))⟩

/-! ### Claim C8 -/

/-- C8: for every loaded table and every batch, in any order, the merged
table that is persisted is sorted ascending by canonical timestamp. -/
theorem spec_c8_merge_result_sorted (csv_file : Option String)
    (tradingview_data : List (Option ParsedBar)) :
    List.Sorted rowLE (update_csv csv_file tradingview_data) := by
  unfold update_csv sortDf
  exact List.sorted_insertionSort rowLE _

/-! ### Claim C9 -/

/-- C9: when loading the persisted table fails (missing file, empty
file, or content the loader cannot interpret), the merge proceeds from
the empty table with the fixed column set instead of propagating the
error. -/
theorem spec_c9_unreadable_table_starts_empty (csv_file : Option String)
    (data : List (Option ParsedBar))
    (h : csv_file = none ∨
      ∃ c, csv_file = some c ∧ (c.data.isEmpty = true ∨ readCsvRows c = none)) :
    loadTable csv_file = [] ∧
      update_csv csv_file data = sortDf (update_csv_rows [] data) := by
  have hl : loadTable csv_file = [] := by
    rcases h with rfl | ⟨c, rfl, hc⟩
    · rfl
    · rcases hc with hc | hc
      · simp [loadTable, hc]
      · by_cases he : c.data.isEmpty <;> simp [loadTable, he, hc]
  exact ⟨hl, by rw [update_csv, hl]⟩

/-- Witness for C9 at a concrete structurally invalid file. -/
theorem spec_c9_unreadable_table_starts_empty_witness :
    loadTable (some "not a csv") = [] ∧
      update_csv (some "not a csv") [] = sortDf (update_csv_rows [] []) :=
  spec_c9_unreadable_table_starts_empty (some "not a csv") []
    (Or.inr ⟨"not a csv", rfl, Or.inr (by decide)⟩)

/-! ### Claim C10 -/

/-- C10: when no input line parses successfully the merge-and-persist
step is not invoked and the persisted file is left unchanged. -/
theorem spec_c10_no_valid_data_leaves_file (inputLines : List String)
    (csv_file : Option String) (h : collectBatch inputLines = []) :
    main_run inputLines csv_file = csv_file := by
  simp [main_run, h]

/-- Witness for C10: a run whose only line is malformed leaves a
concrete prior file content untouched. -/
theorem spec_c10_no_valid_data_leaves_file_witness :
    main_run ["2024-01-01T09:30:00,101.5,102.0"] (some "prior content") =
      some "prior content" :=
  spec_c10_no_valid_data_leaves_file _ _ (by decide)

/-! ### Claim C1 -/

/-- C1: upserting the same canonical timestamp key twice with different
price values, over any table satisfying the at-most-one-row-per-key
invariant, leaves exactly one row for that key in the sorted merged
table, and that row's open/high/low/close fields are those of the last
upsert in input order. -/
theorem spec_c1_last_upsert_wins (df : List Row) (b1 b2 b3 : List (Option ParsedBar))
    (d1 d2 : ParsedBar) (hu : uniqueKeys df) (hk : barKey d1 = barKey d2)
    (hne : (d1.open_, d1.high, d1.low, d1.close) ≠ (d2.open_, d2.high, d2.low, d2.close))
    (hlast : ∀ e ∈ b3, ∀ d : ParsedBar, e = some d → barKey d ≠ barKey d2) :
    countKey (sortDf (update_csv_rows df (b1 ++ some d1 :: b2 ++ some d2 :: b3)))
        (barKey d2) = 1 ∧
    ∀ r ∈ sortDf (update_csv_rows df (b1 ++ some d1 :: b2 ++ some d2 :: b3)),
      rowKey r = barKey d2 →
        r.open_ = d2.open_ ∧ r.high = d2.high ∧ r.low = d2.low ∧ r.close = d2.close := by
  have hbatch : update_csv_rows df (b1 ++ some d1 :: b2 ++ some d2 :: b3) =
      update_csv_rows
        (upsertOne (update_csv_rows (update_csv_rows df b1) (some d1 :: b2)) d2) b3 := by
    rw [update_csv_rows_append, update_csv_rows_append]
    rfl
  have hu2 : uniqueKeys (update_csv_rows (update_csv_rows df b1) (some d1 :: b2)) :=
    uniqueKeys_update_csv_rows _ _ (uniqueKeys_update_csv_rows _ _ hu)
  have hone :
      countKey (upsertOne (update_csv_rows (update_csv_rows df b1) (some d1 :: b2)) d2)
        (barKey d2) = 1 :=
    countKey_upsertOne_self _ _ (hu2 _)
  rw [hbatch]
  constructor
  · rw [countKey_sortDf, countKey_update_csv_rows_nokey _ _ _ hlast, hone]
  · intro r hr hk2
    have hr2 := (mem_sortDf _ _).mp hr
    have hr3 := mem_update_csv_rows_nokey _ _ _ hlast r hr2 hk2
    exact upsertOne_key_rows _ d2 r hr3 hk2

/-- Witness for C1: two upserts of the 09:30 key with different prices
into an empty table leave exactly one row for that key. -/
theorem spec_c1_last_upsert_wins_witness :
    countKey (sortDf (update_csv_rows []
        ([] ++ some ⟨⟨⟨2024, 1, 2, 9, 30, 0, 0⟩, -300⟩, PyFloat.finite 100 0,
            PyFloat.finite 101 0, PyFloat.finite 99 0, PyFloat.finite 1005 (-1)⟩ ::
          [] ++ some ⟨⟨⟨2024, 1, 2, 9, 30, 0, 0⟩, -300⟩, PyFloat.finite 105 0,
            PyFloat.finite 106 0, PyFloat.finite 104 0, PyFloat.finite 1055 (-1)⟩ :: [])))
      (barKey ⟨⟨⟨2024, 1, 2, 9, 30, 0, 0⟩, -300⟩, PyFloat.finite 105 0,
        PyFloat.finite 106 0, PyFloat.finite 104 0, PyFloat.finite 1055 (-1)⟩) = 1 :=
  (spec_c1_last_upsert_wins [] [] [] []
    ⟨⟨⟨2024, 1, 2, 9, 30, 0, 0⟩, -300⟩, PyFloat.finite 100 0, PyFloat.finite 101 0,
      PyFloat.finite 99 0, PyFloat.finite 1005 (-1)⟩
    ⟨⟨⟨2024, 1, 2, 9, 30, 0, 0⟩, -300⟩, PyFloat.finite 105 0, PyFloat.finite 106 0,
      PyFloat.finite 104 0, PyFloat.finite 1055 (-1)⟩
    (fun k => by simp [countKey]) (by decide) (by decide)
    (fun e he => absurd he (List.not_mem_nil e))).1

/-! ### Claim C6 -/

/-- C6: canonicalization keeps timestamps that carry explicit offset
information as they are and tags offset-free ones with the fixed
US/Eastern reference zone, and the very same rule is applied to freshly
parsed input (the parser's inline localization agrees with `ensure_tz`
on the timestamp field) and to rows loaded from storage (whose
timestamp cell goes through `ensure_tz`). -/
theorem spec_c6_uniform_canonicalization :
    (∀ t : NaiveDT, ensure_tz (.dt (.naive t)) = some (easternLocalize t)) ∧
    (∀ a : AwareDT, ensure_tz (.dt (.aware a)) = some a) ∧
    (∀ (line : String) (bar : ParsedBar), parse_tradingview_line line = some bar →
      ensure_tz (.str (tsField line)) = some bar.ts_event) ∧
    (∀ (cs : List Char) (r : Row), parseCsvRow cs = some r →
      ∃ c0 rest, splitChar ',' cs = c0 :: rest ∧
        ensure_tz (.str (String.mk c0)) = some r.ts_event) := by
  refine ⟨fun t => rfl, fun a => rfl, ?_, ?_⟩
  · intro line bar h
    rcases hs : splitChar ',' (pyStrip line.data) with
        _ | ⟨p0, _ | ⟨p1, _ | ⟨p2, _ | ⟨p3, _ | ⟨p4, _ | ⟨p5, tl⟩⟩⟩⟩⟩⟩ <;>
        simp only [parse_tradingview_line, hs] at h <;>
      try exact Option.noConfusion h
    rcases h1 : pyFloatParse p1 with _ | o <;> rw [h1] at h
    · exact Option.noConfusion h
    rcases h2 : pyFloatParse p2 with _ | hi <;> rw [h2] at h
    · exact Option.noConfusion h
    rcases h3 : pyFloatParse p3 with _ | lo <;> rw [h3] at h
    · exact Option.noConfusion h
    rcases h4 : pyFloatParse p4 with _ | cl <;> rw [h4] at h
    · exact Option.noConfusion h
    rcases h5 : pd_to_datetime
        (String.mk (p0.map (fun c => if c == 'T' then ' ' else c))) with _ | ts0 <;>
      rw [h5] at h
    · exact Option.noConfusion h
    have hbar := Option.some.inj h
    simp only [tsField, hs, ensure_tz, h5, Option.map_some]
    rw [← hbar]
    cases ts0 <;> rfl
  · intro cs r h
    rcases hs : splitChar ',' cs with
        _ | ⟨c0, _ | ⟨c1, _ | ⟨c2, _ | ⟨c3, _ | ⟨c4, _ | ⟨c5, _ | ⟨c6, tl⟩⟩⟩⟩⟩⟩⟩ <;>
        simp only [parseCsvRow, hs] at h <;>
      try exact Option.noConfusion h
    rcases h0 : ensure_tz (.str (String.mk c0)) with _ | ts <;> rw [h0] at h
    · exact Option.noConfusion h
    rcases h1 : pyFloatParse c1 with _ | o <;> rw [h1] at h
    · exact Option.noConfusion h
    rcases h2 : pyFloatParse c2 with _ | hi <;> rw [h2] at h
    · exact Option.noConfusion h
    rcases h3 : pyFloatParse c3 with _ | lo <;> rw [h3] at h
    · exact Option.noConfusion h
    rcases h4 : pyFloatParse c4 with _ | cl <;> rw [h4] at h
    · exact Option.noConfusion h
    rcases h5 : pyFloatParse c5 with _ | vo <;> rw [h5] at h
    · exact Option.noConfusion h
    have hr := Option.some.inj h
    exact ⟨c0, [c1, c2, c3, c4, c5], rfl, by rw [h0, ← hr]⟩

/-- Witness for C6: the parsed timestamp of a concrete naive-timestamp
line re-canonicalizes through `ensure_tz` to the same aware value. -/
theorem spec_c6_uniform_canonicalization_witness :
    ensure_tz (.str (tsField "2024-01-02T09:30:00,100,101,99,100.5")) =
      some ⟨⟨2024, 1, 2, 9, 30, 0, 0⟩, -300⟩ :=
  spec_c6_uniform_canonicalization.2.2.1 "2024-01-02T09:30:00,100,101,99,100.5"
    ⟨⟨⟨2024, 1, 2, 9, 30, 0, 0⟩, -300⟩, PyFloat.finite 100 0, PyFloat.finite 101 0,
      PyFloat.finite 99 0, PyFloat.finite 1005 (-1)⟩ (by decide)

/-! ### Claim C5 -/

/-- Counterexample to C5 as stated: a line whose `open` field is the
string `inf` is accepted by the parser even though `inf` is not a
finite decimal number, because Python's `float` also accepts the
infinite and NaN literals. -/
theorem spec_c5_counterexample_inf_accepted :
    parse_tradingview_line "2024-01-02 09:30:00,inf,102,100,101" =
      some ⟨⟨⟨2024, 1, 2, 9, 30, 0, 0⟩, -300⟩, PyFloat.inf false, PyFloat.finite 102 0,
        PyFloat.finite 100 0, PyFloat.finite 101 0⟩ ∧
    (PyFloat.inf false).isFinite = false := by decide

/-- C5 amended: a line is accepted only if each of the four numeric
fields parses under Python `float` (which admits the non-finite
literals `inf`/`nan` besides finite decimals), and a parse failure in
any of the four fields rejects the whole line. -/
theorem spec_c5_numeric_fields_gate_line :
    (∀ (line : String) (p0 p1 p2 p3 p4 : List Char),
      splitChar ',' (pyStrip line.data) = [p0, p1, p2, p3, p4] →
      (pyFloatParse p1 = none ∨ pyFloatParse p2 = none ∨ pyFloatParse p3 = none ∨
        pyFloatParse p4 = none) →
      parse_tradingview_line line = none) ∧
    (∀ (line : String) (bar : ParsedBar), parse_tradingview_line line = some bar →
      ∃ p0 p1 p2 p3 p4, splitChar ',' (pyStrip line.data) = [p0, p1, p2, p3, p4] ∧
        pyFloatParse p1 = some bar.open_ ∧ pyFloatParse p2 = some bar.high ∧
        pyFloatParse p3 = some bar.low ∧ pyFloatParse p4 = some bar.close) := by
  constructor
  · intro line p0 p1 p2 p3 p4 hs hbad
    simp only [parse_tradingview_line, hs]
    rcases h1 : pyFloatParse p1 with _ | o
    · rfl
    rcases h2 : pyFloatParse p2 with _ | hi
    · rfl
    rcases h3 : pyFloatParse p3 with _ | lo
    · rfl
    rcases h4 : pyFloatParse p4 with _ | cl
    · rfl
    rcases hbad with hb | hb | hb | hb <;>
      [rw [h1] at hb; rw [h2] at hb; rw [h3] at hb; rw [h4] at hb] <;>
      exact Option.noConfusion hb
  · intro line bar h
    rcases hs : splitChar ',' (pyStrip line.data) with
        _ | ⟨p0, _ | ⟨p1, _ | ⟨p2, _ | ⟨p3, _ | ⟨p4, _ | ⟨p5, tl⟩⟩⟩⟩⟩⟩ <;>
        simp only [parse_tradingview_line, hs] at h <;>
      try exact Option.noConfusion h
    rcases h1 : pyFloatParse p1 with _ | o <;> rw [h1] at h
    · exact Option.noConfusion h
    rcases h2 : pyFloatParse p2 with _ | hi <;> rw [h2] at h
    · exact Option.noConfusion h
    rcases h3 : pyFloatParse p3 with _ | lo <;> rw [h3] at h
    · exact Option.noConfusion h
    rcases h4 : pyFloatParse p4 with _ | cl <;> rw [h4] at h
    · exact Option.noConfusion h
    rcases h5 : pd_to_datetime
        (String.mk (p0.map (fun c => if c == 'T' then ' ' else c))) with _ | ts0 <;>
      rw [h5] at h
    · exact Option.noConfusion h
    have hbar := Option.some.inj h
    refine ⟨p0, p1, p2, p3, p4, rfl, ?_, ?_, ?_, ?_⟩ <;> rw [← hbar]
    · exact h1
    · exact h2
    · exact h3
    · exact h4

/-- Witness for the amended C5: a concrete line with an unparseable
`high` field is rejected. -/
theorem spec_c5_numeric_fields_gate_line_witness :
    parse_tradingview_line "2024-01-02 09:30:00,101,abc,100,101" = none :=
  spec_c5_numeric_fields_gate_line.1 "2024-01-02 09:30:00,101,abc,100,101"
    "2024-01-02 09:30:00".data "101".data "abc".data "100".data "101".data
    (by decide) (Or.inr (Or.inl (by decide)))

/-! ### Digit and string lemmas used for the round-trip claim -/

theorem digitChar_isDigit (n : Nat) : (digitChar (n % 10)).isDigit = true := by
  have h : n % 10 < 10 := Nat.mod_lt _ (by decide)
  revert h
  generalize n % 10 = m
  revert m
  decide

theorem digitChar_not_space (n : Nat) : isSpaceChar (digitChar (n % 10)) = false := by
  have h : n % 10 < 10 := Nat.mod_lt _ (by decide)
  revert h
  generalize n % 10 = m
  revert m
  decide

theorem digitVal_digitChar (n : Nat) : digitVal (digitChar (n % 10)) = n % 10 := by
  have h : n % 10 < 10 := Nat.mod_lt _ (by decide)
  revert h
  generalize n % 10 = m
  revert m
  decide

theorem pad2_digits (n : Nat) : ∀ c ∈ pad2 n, c.isDigit = true := by
  intro c hc
  simp only [pad2, List.mem_cons, List.not_mem_nil, or_false] at hc
  rcases hc with rfl | rfl <;> exact digitChar_isDigit _

theorem pad4_digits (n : Nat) : ∀ c ∈ pad4 n, c.isDigit = true := by
  intro c hc
  simp only [pad4, List.mem_cons, List.not_mem_nil, or_false] at hc
  rcases hc with rfl | rfl | rfl | rfl <;> exact digitChar_isDigit _

theorem takeDigits_append (ds r : List Char)
    (hds : ∀ c ∈ ds, c.isDigit = true)
    (hr : ∀ c h, r = c :: h → c.isDigit = false) :
    takeDigits (ds ++ r) = (ds, r) := by
  induction ds with
  | nil =>
    cases hc : r with
    | nil => rfl
    | cons c t => simp [takeDigits, hr c t hc]
  | cons c cs ih =>
    have hc := hds c (List.mem_cons_self _ _)
    simp [takeDigits, hc, ih (fun x hx => hds x (List.mem_cons_of_mem _ hx))]

theorem natOfDigits_pad2 (n : Nat) (h : n ≤ 99) : natOfDigits (pad2 n) = n := by
  simp only [natOfDigits, pad2, List.foldl_cons, List.foldl_nil, digitVal_digitChar]
  omega

theorem natOfDigits_pad4 (n : Nat) (h : n ≤ 9999) : natOfDigits (pad4 n) = n := by
  simp only [natOfDigits, pad4, List.foldl_cons, List.foldl_nil, digitVal_digitChar]
  omega

theorem pyStrip_eq_self_of (cs : List Char)
    (h1 : ∀ c h, cs = c :: h → isSpaceChar c = false)
    (h2 : ∀ c h, cs.reverse = c :: h → isSpaceChar c = false) :
    pyStrip cs = cs := by
  unfold pyStrip
  have d1 : cs.dropWhile isSpaceChar = cs := by
    cases hc : cs with
    | nil => rfl
    | cons c t => rw [List.dropWhile_cons, h1 c t hc]; simp
  rw [d1]
  have d2 : cs.reverse.dropWhile isSpaceChar = cs.reverse := by
    cases hc : cs.reverse with
    | nil => rfl
    | cons c t => rw [List.dropWhile_cons, h2 c t hc]; simp
  rw [d2, List.reverse_reverse]

theorem pdParse_serialized (y mo dy hq mi sq oh om : Nat) (sg : Char)
    (hy : y ≤ 9999) (hmo : mo ≤ 99) (hdy : dy ≤ 99) (hh : hq ≤ 99) (hmi : mi ≤ 99)
    (hsq : sq ≤ 99) (hoh : oh ≤ 23) (hom : om ≤ 59)
    (hsg : sg = '+' ∨ sg = '-')
    (hvd : validDate y mo dy = true) (hvt : validTime hq mi sq 0 = true) :
    pdParse (pad4 y ++ '-' :: (pad2 mo ++ '-' :: (pad2 dy ++ ' ' :: (pad2 hq ++
        ':' :: (pad2 mi ++ ':' :: (pad2 sq ++ sg :: (pad2 oh ++ ':' :: pad2 om))))))) =
      some (.aware ⟨⟨y, mo, dy, hq, mi, sq, 0⟩,
        (if sg == '-' then (-1 : Int) else 1) * ((oh * 60 + om : Nat) : Int)⟩) := by
  have t1 : takeDigits (pad4 y ++ '-' :: (pad2 mo ++ '-' :: (pad2 dy ++ ' ' :: (pad2 hq ++
      ':' :: (pad2 mi ++ ':' :: (pad2 sq ++ sg :: (pad2 oh ++ ':' :: pad2 om))))))) =
      ([digitChar (y / 1000 % 10), digitChar (y / 100 % 10), digitChar (y / 10 % 10),
        digitChar (y % 10)],
       '-' :: (pad2 mo ++ '-' :: (pad2 dy ++ ' ' :: (pad2 hq ++
        ':' :: (pad2 mi ++ ':' :: (pad2 sq ++ sg :: (pad2 oh ++ ':' :: pad2 om))))))) :=
    takeDigits_append _ _ (pad4_digits y) (fun c h hc => by cases hc; decide)
  have t2 : takeDigits (pad2 mo ++ '-' :: (pad2 dy ++ ' ' :: (pad2 hq ++
      ':' :: (pad2 mi ++ ':' :: (pad2 sq ++ sg :: (pad2 oh ++ ':' :: pad2 om)))))) =
      ([digitChar (mo / 10 % 10), digitChar (mo % 10)],
       '-' :: (pad2 dy ++ ' ' :: (pad2 hq ++
        ':' :: (pad2 mi ++ ':' :: (pad2 sq ++ sg :: (pad2 oh ++ ':' :: pad2 om)))))) :=
    takeDigits_append _ _ (pad2_digits mo) (fun c h hc => by cases hc; decide)
  have t3 : takeDigits (pad2 dy ++ ' ' :: (pad2 hq ++
      ':' :: (pad2 mi ++ ':' :: (pad2 sq ++ sg :: (pad2 oh ++ ':' :: pad2 om))))) =
      ([digitChar (dy / 10 % 10), digitChar (dy % 10)],
       ' ' :: (pad2 hq ++ ':' :: (pad2 mi ++ ':' :: (pad2 sq ++ sg :: (pad2 oh ++
        ':' :: pad2 om))))) :=
    takeDigits_append _ _ (pad2_digits dy) (fun c h hc => by cases hc; decide)
  have t4 : takeDigits (pad2 hq ++ ':' :: (pad2 mi ++ ':' :: (pad2 sq ++ sg ::
      (pad2 oh ++ ':' :: pad2 om)))) =
      ([digitChar (hq / 10 % 10), digitChar (hq % 10)],
       ':' :: (pad2 mi ++ ':' :: (pad2 sq ++ sg :: (pad2 oh ++ ':' :: pad2 om)))) :=
    takeDigits_append _ _ (pad2_digits hq) (fun c h hc => by cases hc; decide)
  have t5 : takeDigits (pad2 mi ++ ':' :: (pad2 sq ++ sg :: (pad2 oh ++ ':' :: pad2 om))) =
      ([digitChar (mi / 10 % 10), digitChar (mi % 10)],
       ':' :: (pad2 sq ++ sg :: (pad2 oh ++ ':' :: pad2 om))) :=
    takeDigits_append _ _ (pad2_digits mi) (fun c h hc => by cases hc; decide)
  have t6 : takeDigits (pad2 sq ++ sg :: (pad2 oh ++ ':' :: pad2 om)) =
      ([digitChar (sq / 10 % 10), digitChar (sq % 10)],
       sg :: (pad2 oh ++ ':' :: pad2 om)) :=
    takeDigits_append _ _ (pad2_digits sq)
      (fun c h hc => by cases hc; rcases hsg with rfl | rfl <;> decide)
  have t7 : takeDigits (pad2 oh ++ ':' :: pad2 om) =
      ([digitChar (oh / 10 % 10), digitChar (oh % 10)], ':' :: pad2 om) :=
    takeDigits_append _ _ (pad2_digits oh) (fun c h hc => by cases hc; decide)
  have t8 : takeDigits (pad2 om) =
      ([digitChar (om / 10 % 10), digitChar (om % 10)], []) := by
    have := takeDigits_append (pad2 om) [] (pad2_digits om) (fun c h hc => by cases hc)
    rwa [List.append_nil] at this
  have n1 : natOfDigits [digitChar (y / 1000 % 10), digitChar (y / 100 % 10),
      digitChar (y / 10 % 10), digitChar (y % 10)] = y := natOfDigits_pad4 y hy
  have n2 : natOfDigits [digitChar (mo / 10 % 10), digitChar (mo % 10)] = mo :=
    natOfDigits_pad2 mo hmo
  have n3 : natOfDigits [digitChar (dy / 10 % 10), digitChar (dy % 10)] = dy :=
    natOfDigits_pad2 dy hdy
  have n4 : natOfDigits [digitChar (hq / 10 % 10), digitChar (hq % 10)] = hq :=
    natOfDigits_pad2 hq hh
  have n5 : natOfDigits [digitChar (mi / 10 % 10), digitChar (mi % 10)] = mi :=
    natOfDigits_pad2 mi hmi
  have n6 : natOfDigits [digitChar (sq / 10 % 10), digitChar (sq % 10)] = sq :=
    natOfDigits_pad2 sq hsq
  have n7 : natOfDigits [digitChar (oh / 10 % 10), digitChar (oh % 10)] = oh :=
    natOfDigits_pad2 oh (by omega)
  have n8 : natOfDigits [digitChar (om / 10 % 10), digitChar (om % 10)] = om :=
    natOfDigits_pad2 om (by omega)
  rcases hsg with rfl | rfl <;>
    simp [pdParse, parseDatePart, parseTimePart, parseOffsetMinutes,
      t1, t2, t3, t4, t5, t6, t7, t8, n1, n2, n3, n4, n5, n6, n7, n8, hvd, hvt, hoh, hom]

theorem daysInMonth_le (y m : Nat) : daysInMonth y m ≤ 31 := by
  unfold daysInMonth
  split
  · split <;> omega
  · split <;> omega

theorem insertTzColon_strftimeZ (t : AwareDT) :
    insertTzColon (strftimeZ t) =
      pad4 t.naive.year ++ '-' :: (pad2 t.naive.month ++ '-' :: (pad2 t.naive.day ++
        ' ' :: (pad2 t.naive.hour ++ ':' :: (pad2 t.naive.minute ++
        ':' :: (pad2 t.naive.second ++ (if t.offset < 0 then '-' else '+') ::
        (pad2 (t.offset.natAbs / 60) ++ ':' :: pad2 (t.offset.natAbs % 60))))))) := by
  by_cases ho : t.offset < 0 <;>
    simp [strftimeZ, insertTzColon, pad2, pad4, ho, digitChar_isDigit]

theorem pyStrip_serialized (t : AwareDT) :
    pyStrip (pad4 t.naive.year ++ '-' :: (pad2 t.naive.month ++ '-' :: (pad2 t.naive.day ++
        ' ' :: (pad2 t.naive.hour ++ ':' :: (pad2 t.naive.minute ++
        ':' :: (pad2 t.naive.second ++ (if t.offset < 0 then '-' else '+') ::
        (pad2 (t.offset.natAbs / 60) ++ ':' :: pad2 (t.offset.natAbs % 60))))))))
      = pad4 t.naive.year ++ '-' :: (pad2 t.naive.month ++ '-' :: (pad2 t.naive.day ++
        ' ' :: (pad2 t.naive.hour ++ ':' :: (pad2 t.naive.minute ++
        ':' :: (pad2 t.naive.second ++ (if t.offset < 0 then '-' else '+') ::
        (pad2 (t.offset.natAbs / 60) ++ ':' :: pad2 (t.offset.natAbs % 60))))))) := by
  by_cases ho : t.offset < 0 <;>
    simp [pyStrip, pad2, pad4, ho, digitChar_not_space]

/-! ### Claim C7 -/

/-- Counterexample to C7 as stated: a parsed line with fractional
seconds puts a sub-second timestamp into the merged table, and the
fixed textual form `YYYY-MM-DD HH:MM:SS±HH:MM` drops the fractional
part, so re-parsing the serialized text yields a different instant. -/
theorem spec_c7_counterexample_subsecond :
    (update_csv none [parse_tradingview_line "2024-01-02T09:30:00.5,101,102,100,101.5"]).map
        Row.ts_event = [⟨⟨2024, 1, 2, 9, 30, 0, 500000⟩, -300⟩] ∧
    ((ensure_tz (.str (serialize_ts ⟨⟨2024, 1, 2, 9, 30, 0, 500000⟩, -300⟩))).map
        AwareDT.instant ≠
      some (AwareDT.instant ⟨⟨2024, 1, 2, 9, 30, 0, 500000⟩, -300⟩)) := by
  constructor
  · decide
  · decide

/-- C7 amended: for every canonical timestamp of the program whose
sub-second component is zero, serializing it in the fixed textual form
`YYYY-MM-DD HH:MM:SS±HH:MM` and re-parsing and re-canonicalizing the
serialized text reproduces the identical timestamp (hence the identical
instant). -/
theorem spec_c7_roundtrip_whole_second (t : AwareDT) (hv : ValidAware t)
    (hm : t.naive.micro = 0) : ensure_tz (.str (serialize_ts t)) = some t := by
  obtain ⟨hvd, hvt, hoff⟩ := hv
  obtain ⟨⟨y, mo, dy, hq, mi, sq, mic⟩, off⟩ := t
  simp only at hvd hvt hoff hm
  subst hm
  have hdim := daysInMonth_le y mo
  have hvd2 := hvd
  have hvt2 := hvt
  simp only [validDate, Bool.and_eq_true, decide_eq_true_eq] at hvd2
  simp only [validTime, Bool.and_eq_true, decide_eq_true_eq] at hvt2
  have hy : y ≤ 9999 := by omega
  have hmo : mo ≤ 99 := by omega
  have hdy : dy ≤ 99 := by omega
  have hhq : hq ≤ 99 := by omega
  have hmi : mi ≤ 99 := by omega
  have hsq : sq ≤ 99 := by omega
  have hser := insertTzColon_strftimeZ ⟨⟨y, mo, dy, hq, mi, sq, 0⟩, off⟩
  have hstr := pyStrip_serialized ⟨⟨y, mo, dy, hq, mi, sq, 0⟩, off⟩
  simp only at hser hstr
  have hparse := pdParse_serialized y mo dy hq mi sq (off.natAbs / 60) (off.natAbs % 60)
    (if off < 0 then '-' else '+') hy hmo hdy hhq hmi hsq (by omega) (by omega)
    (by by_cases ho : off < 0 <;> simp [ho]) hvd hvt
  simp only [ensure_tz, serialize_ts, pd_to_datetime]
  rw [hser, hstr, hparse]
  simp only [Option.map_some', ensure_tz_dt]
  refine congrArg some (congrArg (AwareDT.mk _) ?_)
  by_cases ho : off < 0
  · simp [ho]
    have habs : |off| = -off := abs_of_neg ho
    omega
  · simp [ho]
    have habs : |off| = off := abs_of_nonneg (not_lt.mp ho)
    omega

/-- Witness for the amended C7 at a concrete EST timestamp. -/
theorem spec_c7_roundtrip_whole_second_witness :
    ensure_tz (.str (serialize_ts ⟨⟨2024, 1, 2, 9, 30, 0, 0⟩, -300⟩)) =
      some ⟨⟨2024, 1, 2, 9, 30, 0, 0⟩, -300⟩ :=
  spec_c7_roundtrip_whole_second ⟨⟨2024, 1, 2, 9, 30, 0, 0⟩, -300⟩
    ⟨by decide, by decide, by decide⟩ rfl
